import Mathlib

/-!
Verification of the bingo backend's core game logic.

The JavaScript sources are shallowly embedded as pure Lean functions:

* `src/utils/gridGenerator.js` — seeded LCG and deterministic card generation;
* `src/models/BingoGameSession.js` (grid variant) — `callNumber`,
  `markNumberOnAllCards`, `markNumberOnPlayerCard`, the pattern predicates and
  `checkForWinners`;
* the grid route handlers (`start`, `call-number`, `stop`, `mark-number`) and
  the auto-call tick;
* `src/models/LetterBingoGameSession.js` (word variant) — `drawLetter` and
  `checkForWinners`.

Randomness (`crypto.randomInt`, `Math.random`) is modelled by an explicit
`randomIndex` parameter, and the wall clock (`new Date()`) by an explicit
`now : Nat` parameter; everything else follows the source line by line.
Mongoose `ObjectId`s are modelled as `Nat`, timestamps as `Nat`.
-/

namespace GridGen

open List

/-- One step of the linear congruential generator of `createSeededRandom`:
`currentSeed = (currentSeed * 9301 + 49297) % 233280`. -/
def lcgNext (seed : Nat) : Nat := (seed * 9301 + 49297) % 233280

/-- The index `nextInt(min, max)` computes from a (just advanced) seed:
`Math.floor(seed / 233280 * (max - min)) + min`, written with exact natural
division (the JS double rounding always lands in the same `[min, max)`
interval, which is all the stated properties depend on). -/
def lcgNextInt (seed min max : Nat) : Nat := seed * (max - min) / 233280 + min

/-- The destructuring swap `[a[i], a[j]] = [a[j], a[i]]` on a list. -/
def listSwap (l : List Nat) (i j : Nat) : List Nat :=
  (l.set i (l.getD j 0)).set j (l.getD i 0)

/-- One iteration of the Fisher–Yates loop in
`generateDeterministicBingoCard`: advance the seed, compute
`j = nextInt(0, i + 1)` and swap positions `i` and `j`. -/
def shuffleStep (st : List Nat × Nat) (i : Nat) : List Nat × Nat :=
  let seed := lcgNext st.2
  (listSwap st.1 i (lcgNextInt seed 0 (i + 1)), seed)

/-- The loop indices `i = length - 1, …, 1` of the Fisher–Yates loop. -/
def shuffleIndices (n : Nat) : List Nat := (List.range' 1 (n - 1)).reverse

/-- The full Fisher–Yates shuffle of `generateDeterministicBingoCard`,
threading the LCG seed. -/
def fisherYates (l : List Nat) (seed : Nat) : List Nat × Nat :=
  (shuffleIndices l.length).foldl shuffleStep (l, seed)

/-- The five `columnRanges` of `generateDeterministicBingoCard`. -/
def columnRanges : List (Nat × Nat) := [(1, 15), (16, 30), (31, 45), (46, 60), (61, 75)]

/-- Builds one column of the card: the available numbers `min..max` are
shuffled with the seeded generator and the first five are taken, except that
the centre cell (column 2, row 2) is the FREE sentinel `0`. -/
def buildColumn (col seed : Nat) : List Nat × Nat :=
  let r := columnRanges.getD col (0, 0)
  let available := List.range' r.1 (r.2 - r.1 + 1)
  let sh := fisherYates available seed
  ((List.range 5).map (fun row => if col = 2 ∧ row = 2 then 0 else sh.1.getD row 0), sh.2)

/-- Embedding of `generateDeterministicBingoCard(cardNumber)`: the five
columns are built left to right with the single seeded generator threaded
through (grid is a list of five columns, each a list of five cell values). -/
def generateDeterministicBingoCard (cardNumber : Nat) : List (List Nat) :=
  ((List.range 5).foldl
    (fun acc col =>
      let b := buildColumn col acc.2
      (acc.1 ++ [b.1], b.2))
    ([], cardNumber)).1

/-- Cell value of a generated grid at column `c`, row `r`. -/
def cellValue (cardNumber c r : Nat) : Nat :=
  ((generateDeterministicBingoCard cardNumber).getD c []).getD r 0

end GridGen

namespace NumberBingo

/-- The `status` enum of `bingoGameSessionSchema`. -/
inductive GameStatus
  | preparing | ready | active | paused | completed
deriving DecidableEq

/-- An entry of `calledNumbers` (`calledNumberSchema`). -/
structure CalledNumber where
  number : Nat
  calledAt : Nat
deriving DecidableEq

/-- A player's card (`bingoCardSchema`); grid is 5 columns of 5 cell values. -/
structure BingoCard where
  player : Nat
  cardNumber : Nat
  grid : List (List Nat)
  marked : List (List Bool)
deriving DecidableEq

/-- An entry of `winners` (`winnerSchema`). -/
structure Winner where
  player : Nat
  cardNumber : Nat
  pattern : String
  completedAt : Nat
  winningCard : List (List Nat)
  markedCells : List (List Bool)
deriving DecidableEq

/-- The grid-variant session (`bingoGameSessionSchema`), restricted to the
fields the game logic reads or writes. -/
structure BingoGameSession where
  gameId : String
  maxPlayers : Nat
  status : GameStatus
  winningPattern : String
  markingMode : String
  players : List Nat
  bingoCards : List BingoCard
  calledNumbers : List CalledNumber
  currentNumber : Option Nat
  winners : List Winner
  startedAt : Option Nat
  completedAt : Option Nat
deriving DecidableEq

/-- The list `calledNumbers.map(cn => cn.number)` computed inside `callNumber`. -/
def calledNumbersList (s : BingoGameSession) : List Nat :=
  s.calledNumbers.map (fun cn => cn.number)

/-- The `remainingNumbers` loop of `callNumber`: all of `1..75` not yet in
`calledNumbers`. -/
def remainingNumbers (s : BingoGameSession) : List Nat :=
  (List.range' 1 75).filter (fun i => !((calledNumbersList s).contains i))

/-- Reading `grid[col][row]`; `none` models the out-of-bounds `undefined`. -/
def cellVal (grid : List (List Nat)) (col row : Nat) : Option Nat :=
  (grid.get? col).bind (fun c => c.get? row)

/-- The 5-by-5 marking loop shared by `markNumberOnAllCards` and
`markNumberOnPlayerCard`: each cell `(col, row)` with `col, row < 5` whose
grid value equals `n` is set to marked, all other cells keep their value. -/
def markCells (n : Nat) (card : BingoCard) : BingoCard :=
  { card with marked := card.marked.mapIdx (fun col mcol =>
      mcol.mapIdx (fun row m =>
        if col < 5 ∧ row < 5 ∧ cellVal card.grid col row = some n then true else m)) }

/-- Embedding of `markNumberOnAllCards(number)`. -/
def markNumberOnAllCards (n : Nat) (cards : List BingoCard) : List BingoCard :=
  cards.map (markCells n)

/-- Embedding of `callNumber()`; `randomIndex` stands for the
`crypto.randomInt(0, remainingNumbers.length)` draw and `now` for
`new Date()`.  Returns the drawn number (`none` models the `null` of an
exhausted pool) together with the mutated session. -/
def callNumber (randomIndex now : Nat) (s : BingoGameSession) :
    Option Nat × BingoGameSession :=
  let remaining := remainingNumbers s
  if remaining.length = 0 then (none, s)
  else
    let calledNumber := remaining.getD randomIndex 0
    let s1 := { s with
      calledNumbers := s.calledNumbers ++ [{ number := calledNumber, calledAt := now }],
      currentNumber := some calledNumber }
    if s1.markingMode = "auto" then
      (some calledNumber,
       { s1 with bingoCards := markNumberOnAllCards calledNumber s1.bingoCards })
    else (some calledNumber, s1)

/-- Embedding of `getPlayerCard(playerId)`. -/
def getPlayerCard (pid : Nat) (s : BingoGameSession) : Option BingoCard :=
  s.bingoCards.find? (fun c => c.player == pid)

/-- Whether the 5-by-5 loop of `markNumberOnPlayerCard` finds `n` anywhere on
the card (the returned `marked` flag). -/
def cardHasNumber (n : Nat) (card : BingoCard) : Bool :=
  (List.range 5).any (fun col =>
    (List.range 5).any (fun row => cellVal card.grid col row == some n))

/-- Embedding of `markNumberOnPlayerCard(playerId, number)`: the first card
owned by `pid` gets every matching cell marked; the flag tells whether any
cell matched.  If the player has no card the session is untouched. -/
def markNumberOnPlayerCard (pid n : Nat) (s : BingoGameSession) :
    Bool × BingoGameSession :=
  match s.bingoCards.findIdx? (fun c => c.player == pid) with
  | none => (false, s)
  | some i =>
    match s.bingoCards[i]? with
    | none => (false, s)
    | some card =>
      (cardHasNumber n card,
       { s with bingoCards := s.bingoCards.set i (markCells n card) })

/-- Reading `marked[col][row]` (missing entries read as unmarked). -/
def cellMarked (marked : List (List Bool)) (col row : Nat) : Bool :=
  (marked.getD col []).getD row false

/-- Embedding of `hasHorizontalLine(marked)`. -/
def hasHorizontalLine (marked : List (List Bool)) : Bool :=
  (List.range 5).any (fun row => (List.range 5).all (fun col => cellMarked marked col row))

/-- Embedding of `hasVerticalLine(marked)`. -/
def hasVerticalLine (marked : List (List Bool)) : Bool :=
  (List.range 5).any (fun col => (List.range 5).all (fun row => cellMarked marked col row))

/-- Embedding of `hasDiagonalLine(marked)`. -/
def hasDiagonalLine (marked : List (List Bool)) : Bool :=
  ((List.range 5).all (fun i => cellMarked marked i i)) ||
  ((List.range 5).all (fun i => cellMarked marked (4 - i) i))

/-- Embedding of `hasFourCorners(marked)`. -/
def hasFourCorners (marked : List (List Bool)) : Bool :=
  cellMarked marked 0 0 && cellMarked marked 4 0 &&
  cellMarked marked 0 4 && cellMarked marked 4 4

/-- Embedding of `hasFullHouse(marked)`. -/
def hasFullHouse (marked : List (List Bool)) : Bool :=
  (List.range 5).all (fun col => (List.range 5).all (fun row => cellMarked marked col row))

/-- The `switch (this.winningPattern)` of `checkForWinners`, returning the
pattern name recorded for a winning card. -/
def winningPatternHit (wp : String) (marked : List (List Bool)) : Option String :=
  if wp = "any-line" then
    if hasHorizontalLine marked then some "horizontal"
    else if hasVerticalLine marked then some "vertical"
    else if hasDiagonalLine marked then some "diagonal"
    else none
  else if wp = "horizontal" then
    if hasHorizontalLine marked then some "horizontal" else none
  else if wp = "vertical" then
    if hasVerticalLine marked then some "vertical" else none
  else if wp = "diagonal" then
    if hasDiagonalLine marked then some "diagonal" else none
  else if wp = "four-corners" then
    if hasFourCorners marked then some "four-corners" else none
  else if wp = "full-house" then
    if hasFullHouse marked then some "full-house" else none
  else none

/-- Embedding of the grid-variant `checkForWinners()`: every card whose owner
is not already in `winners` and whose marking matrix satisfies the session's
pattern yields a new winner entry, in card order. -/
def checkForWinners (now : Nat) (s : BingoGameSession) : List Winner :=
  let existingWinnerIds := s.winners.map (fun w => w.player)
  s.bingoCards.filterMap (fun card =>
    if existingWinnerIds.contains card.player then none
    else
      (winningPatternHit s.winningPattern card.marked).map (fun pat =>
        { player := card.player, cardNumber := card.cardNumber, pattern := pat,
          completedAt := now, winningCard := card.grid, markedCells := card.marked }))

/-- Result of the manual `POST /games/:gameId/call-number` handler: the HTTP
response, the session as saved, and whether `stopAutoCallNumbers` ran. -/
structure CallOutcome where
  response : Except String (Nat × List Winner)
  game : BingoGameSession
  stoppedScheduler : Bool

/-- Embedding of the manual call-number route (the session-lookup 404 is
outside the model). -/
def callNumberRouteHandler (randomIndex now : Nat) (s : BingoGameSession) : CallOutcome :=
  if s.status ≠ GameStatus.active ∧ s.status ≠ GameStatus.paused then
    { response := Except.error "Game must be active or paused", game := s,
      stoppedScheduler := false }
  else
    match callNumber randomIndex now s with
    | (none, s1) =>
      { response := Except.error "All numbers have been called", game := s1,
        stoppedScheduler := false }
    | (some n, s1) =>
      let newWinners := checkForWinners now s1
      if newWinners.length > 0 then
        { response := Except.ok (n, newWinners),
          game := { s1 with
                    winners := s1.winners ++ newWinners,
                    status := GameStatus.completed, completedAt := some now },
          stoppedScheduler := true }
      else
        { response := Except.ok (n, newWinners), game := s1, stoppedScheduler := false }

/-- Result of one tick of `startAutoCallNumbers`. -/
structure TickOutcome where
  game : BingoGameSession
  stoppedScheduler : Bool
  drew : Option Nat

/-- Embedding of one `setInterval` tick of `startAutoCallNumbers`. -/
def autoCallTick (randomIndex now : Nat) (s : BingoGameSession) : TickOutcome :=
  if s.status ≠ GameStatus.active then
    { game := s, stoppedScheduler := true, drew := none }
  else
    match callNumber randomIndex now s with
    | (none, s1) =>
      { game := { s1 with status := GameStatus.completed, completedAt := some now },
        stoppedScheduler := true, drew := none }
    | (some n, s1) =>
      let newWinners := checkForWinners now s1
      if newWinners.length > 0 then
        { game := { s1 with
                      winners := s1.winners ++ newWinners,
                      status := GameStatus.completed, completedAt := some now },
          stoppedScheduler := true, drew := some n }
      else
        { game := s1, stoppedScheduler := false, drew := some n }

/-- Result of the `POST /games/:gameId/start` handler. -/
structure StartOutcome where
  response : Except String Unit
  game : BingoGameSession
  startedScheduler : Bool

/-- Embedding of the grid-variant start route. -/
def startRouteHandler (now : Nat) (s : BingoGameSession) : StartOutcome :=
  if s.status ≠ GameStatus.ready then
    { response := Except.error "Game is not ready to start", game := s,
      startedScheduler := false }
  else if s.players.length < s.maxPlayers then
    { response := Except.error "Game must be full to start", game := s,
      startedScheduler := false }
  else
    let playersWithCards := s.bingoCards.map (fun c => c.player)
    let playersWithoutCards := s.players.filter (fun p => !(playersWithCards.contains p))
    if playersWithoutCards.length > 0 then
      { response := Except.error "Cannot start: players without cards", game := s,
        startedScheduler := false }
    else
      { response := Except.ok (),
        game := { s with status := GameStatus.active, startedAt := some now },
        startedScheduler := true }

/-- Result of the `POST /games/:gameId/stop` handler. -/
structure StopOutcome where
  response : Except String Unit
  game : BingoGameSession
  stoppedScheduler : Bool

/-- Embedding of the grid-variant stop route: no status guard, the scheduler
is stopped and the completion timestamp is overwritten unconditionally. -/
def stopRouteHandler (now : Nat) (s : BingoGameSession) : StopOutcome :=
  { response := Except.ok (),
    game := { s with status := GameStatus.completed, completedAt := some now },
    stoppedScheduler := true }

/-- Result of the `POST /games/:gameId/mark-number` handler: the response
carries the number and the `hasWon` flag. -/
structure MarkOutcome where
  response : Except String (Nat × Bool)
  game : BingoGameSession

/-- Embedding of the mark-number route (manual marking mode). -/
def markNumberRouteHandler (pid n now : Nat) (s : BingoGameSession) : MarkOutcome :=
  if s.status ≠ GameStatus.active ∧ s.status ≠ GameStatus.paused then
    { response := Except.error "Game is not active", game := s }
  else if s.markingMode ≠ "manual" then
    { response := Except.error "Game is not in manual marking mode", game := s }
  else if !(s.players.contains pid) then
    { response := Except.error "You are not a player in this game", game := s }
  else if n < 1 ∨ 75 < n then
    { response := Except.error "Invalid number", game := s }
  else if !((calledNumbersList s).contains n) then
    { response := Except.error "This number has not been called yet", game := s }
  else
    let r := markNumberOnPlayerCard pid n s
    if !r.1 then
      { response := Except.error "Number not found on your card", game := r.2 }
    else
      let newWinners := checkForWinners now r.2
      if newWinners.length > 0 then
        { response := Except.ok (n, newWinners.any (fun w => w.player == pid)),
          game := { r.2 with
                    winners := r.2.winners ++ newWinners,
                    status := GameStatus.completed, completedAt := some now } }
      else
        { response := Except.ok (n, newWinners.any (fun w => w.player == pid)),
          game := r.2 }

/-- A blank grid session used to build concrete test states. -/
def emptyGame : BingoGameSession :=
  { gameId := "BG1", maxPlayers := 2, status := GameStatus.preparing,
    winningPattern := "any-line", markingMode := "auto", players := [],
    bingoCards := [], calledNumbers := [], currentNumber := none, winners := [],
    startedAt := none, completedAt := none }

end NumberBingo

namespace LetterBingo

/-- The `status` enum of `letterBingoGameSessionSchema`. -/
inductive LetterStatus
  | preparing | ready | playing | completed
deriving DecidableEq

/-- An entry of `playerWords` (`playerWordSchema`). -/
structure PlayerWord where
  player : Nat
  word : List Char
  matchedLetters : List Char
  isWinner : Bool
deriving DecidableEq

/-- The word-variant session (`letterBingoGameSessionSchema`), restricted to
the fields the game logic reads or writes; `drawnLetters` entries carry their
`drawnAt` timestamp and `winningWords` pairs a player with their word. -/
structure LetterBingoGameSession where
  maxPlayers : Nat
  wordLength : Nat
  status : LetterStatus
  players : List Nat
  playerWords : List PlayerWord
  drawnLetters : List (Char × Nat)
  remainingLetters : List Char
  winners : List Nat
  winningWords : List (Nat × List Char)
  startedAt : Option Nat
  completedAt : Option Nat
deriving DecidableEq

/-- Embedding of `initializeLetters()`. -/
def initializeLetters (s : LetterBingoGameSession) : LetterBingoGameSession :=
  { s with remainingLetters := "ABCDEFGHIJKLMNOPQRSTUVWXYZ".toList, drawnLetters := [] }

/-- The per-playerWord body of the `forEach` in the word-variant
`checkForWinners`: a non-winner whose word contains the new letter gets the
letter added to `matchedLetters` (if absent) and is flagged the winner when
every letter of the word is matched. -/
def processWord (newLetter : Char) (pw : PlayerWord) : PlayerWord :=
  if !pw.isWinner && pw.word.contains newLetter then
    let matched := if pw.matchedLetters.contains newLetter then pw.matchedLetters
                   else pw.matchedLetters ++ [newLetter]
    if pw.word.all (fun c => matched.contains c) then
      { pw with matchedLetters := matched, isWinner := true }
    else
      { pw with matchedLetters := matched }
  else pw

/-- Whether this `forEach` iteration declares `pw` a winner. -/
def wonNow (newLetter : Char) (pw : PlayerWord) : Bool :=
  (processWord newLetter pw).isWinner && !pw.isWinner

/-- Embedding of the word-variant `checkForWinners(newLetter)`.  The JS
`forEach` updates each `playerWord` independently and pushes each newly won
player (in list order) onto `winners` and `winningWords`; if any player won,
the session is completed and time-stamped. -/
def checkForWinners (now : Nat) (newLetter : Char) (s : LetterBingoGameSession) :
    LetterBingoGameSession :=
  let newWords := s.playerWords.map (processWord newLetter)
  let justWon := s.playerWords.filter (wonNow newLetter)
  let s1 := { s with
    playerWords := newWords,
    winners := s.winners ++ justWon.map (fun pw => pw.player),
    winningWords := s.winningWords ++ justWon.map (fun pw => (pw.player, pw.word)) }
  if justWon.length > 0 then
    { s1 with status := LetterStatus.completed, completedAt := some now }
  else s1

/-- Embedding of `drawLetter()`; `randomIndex` stands for
`Math.floor(Math.random() * remainingLetters.length)` and `now` for
`new Date()`.  Note there is no status guard: the letter is drawn, moved from
`remainingLetters` to `drawnLetters`, and winners are checked regardless of
the session status. -/
def drawLetter (randomIndex now : Nat) (s : LetterBingoGameSession) :
    Option Char × LetterBingoGameSession :=
  if s.remainingLetters.length = 0 then (none, s)
  else
    let drawn := s.remainingLetters.getD randomIndex 'A'
    let s1 := { s with
      remainingLetters := s.remainingLetters.eraseIdx randomIndex,
      drawnLetters := s.drawnLetters ++ [(drawn, now)] }
    (some drawn, checkForWinners now drawn s1)

/-- A blank word-variant session used to build concrete test states. -/
def emptyLetterGame : LetterBingoGameSession :=
  { maxPlayers := 2, wordLength := 3, status := LetterStatus.preparing,
    players := [], playerWords := [], drawnLetters := [], remainingLetters := [],
    winners := [], winningWords := [], startedAt := none, completedAt := none }

end LetterBingo

namespace NumberBingo

/-- A grid session whose 75 numbers have all been called, still `active`. -/
def exhaustedGame : BingoGameSession :=
  { emptyGame with
    status := GameStatus.active,
    calledNumbers := (List.range' 1 75).map (fun n => { number := n, calledAt := 0 }) }

/-- An active grid session with no numbers called yet. -/
def freshActiveGame : BingoGameSession :=
  { emptyGame with status := GameStatus.active }

/-- An already-completed grid session with completion timestamp 5. -/
def completedGame : BingoGameSession :=
  { emptyGame with status := GameStatus.completed, completedAt := some 5 }

/-- A 5-by-5 fully marked marking matrix. -/
def allMarked : List (List Bool) := List.replicate 5 (List.replicate 5 true)

/-- A recorded winner entry for player 3. -/
def exWinner : Winner :=
  { player := 3, cardNumber := 1, pattern := "horizontal", completedAt := 0,
    winningCard := [], markedCells := [] }

/-- An active session where player 3 already won and their card still has a
fully marked matrix (so it would trivially match again). -/
def winnerGame : BingoGameSession :=
  { emptyGame with
    status := GameStatus.active,
    winners := [exWinner],
    bingoCards := [{ player := 3, cardNumber := 1, grid := [], marked := allMarked }] }

/-- A card owned by player `p` (grid contents irrelevant to start checks). -/
def cardFor (p : Nat) : BingoCard :=
  { player := p, cardNumber := p, grid := [], marked := [] }

/-- A ready session at capacity with both players carded. -/
def readyFullGame : BingoGameSession :=
  { emptyGame with
    status := GameStatus.ready, maxPlayers := 2, players := [1, 2],
    bingoCards := [cardFor 1, cardFor 2] }

/-- A one-cell card containing the number 7, unmarked. -/
def smallCard : BingoCard :=
  { player := 1, cardNumber := 1, grid := [[7]], marked := [[false]] }

/-- A manual-mode active session where 7 has been called and player 1 holds
`smallCard`. -/
def manualGame : BingoGameSession :=
  { emptyGame with
    status := GameStatus.active, markingMode := "manual", players := [1],
    bingoCards := [smallCard],
    calledNumbers := [{ number := 7, calledAt := 0 }] }

end NumberBingo

namespace LetterBingo

/-- Two players whose words both complete on the letter A. -/
def simultaneousGame : LetterBingoGameSession :=
  { emptyLetterGame with
    status := LetterStatus.playing, players := [1, 2],
    playerWords := [
      { player := 1, word := ['A', 'B', 'C'], matchedLetters := ['B', 'C'], isWinner := false },
      { player := 2, word := ['A', 'D', 'E'], matchedLetters := ['D', 'E'], isWinner := false }],
    remainingLetters := ['A'] }

/-- An already-completed word session with one letter left and a player one
letter away from winning. -/
def completedLetterGame : LetterBingoGameSession :=
  { emptyLetterGame with
    status := LetterStatus.completed, completedAt := some 3, players := [7],
    playerWords := [{ player := 7, word := ['A', 'B'], matchedLetters := ['B'], isWinner := false }],
    remainingLetters := ['A'] }

/-- A word session where player 4 is already flagged as winner and recorded. -/
def flaggedWinnerGame : LetterBingoGameSession :=
  { emptyLetterGame with
    status := LetterStatus.playing, players := [4],
    playerWords := [{ player := 4, word := ['A', 'B'], matchedLetters := ['A', 'B'], isWinner := true }],
    winners := [4], winningWords := [(4, ['A', 'B'])],
    remainingLetters := ['C'] }

end LetterBingo

namespace GridGen

open List

theorem set_getD_self (l : List Nat) (i : Nat) (hi : i < l.length) :
    l.set i (l.getD i 0) = l := by
  apply List.ext_getElem (by simp)
  intro k h1 h2
  rw [List.getElem_set]
  split
  · subst k
    simp [List.getD_eq_getElem?_getD, List.getElem?_eq_getElem hi]
  · rfl

theorem listSwap_perm (l : List Nat) (i j : Nat) (hj : j ≤ i) (hi : i < l.length) :
    listSwap l i j ~ l := by
  rcases Nat.eq_or_lt_of_le hj with heq | hlt
  · subst heq
    unfold listSwap
    rw [List.set_set, set_getD_self _ _ hi]
  · -- j < i: decompose both sides around positions j and i
    have hjl : j < l.length := Nat.lt_trans hlt hi
    have hgdj : l.getD j 0 = l[j] := by
      simp [List.getD_eq_getElem?_getD, List.getElem?_eq_getElem hjl]
    have hgdi : l.getD i 0 = l[i] := by
      simp [List.getD_eq_getElem?_getD, List.getElem?_eq_getElem hi]
    have hlen_take : (l.take i).length = i := List.length_take_of_le (Nat.le_of_lt hi)
    -- first set: position i
    have h1 : l.set i (l.getD j 0) = l.take i ++ l[j] :: l.drop (i + 1) := by
      rw [hgdj, List.set_eq_take_append_cons_drop]
      simp [hi]
    -- second set: position j, which lies inside `take i`
    have h2 : listSwap l i j = (l.take i).set j l[i] ++ l[j] :: l.drop (i + 1) := by
      unfold listSwap
      rw [h1, hgdi, List.set_append_left _ _ (by omega)]
    have h3 : (l.take i).set j l[i] =
        (l.take i).take j ++ l[i] :: (l.take i).drop (j + 1) := by
      rw [List.set_eq_take_append_cons_drop]
      simp [hlen_take, hlt]
    have h4 : l.take i = (l.take i).take j ++ l[j] :: (l.take i).drop (j + 1) := by
      conv_lhs => rw [← set_getD_self (l.take i) j (by omega)]
      rw [List.set_eq_take_append_cons_drop]
      have : (l.take i).getD j 0 = l[j] := by
        have hjt : j < (l.take i).length := by omega
        simp [List.getD_eq_getElem?_getD, List.getElem?_eq_getElem hjt]
      simp [hlen_take, hlt, this]
    have h0 : l = l.take i ++ l[i] :: l.drop (i + 1) := by
      conv_lhs => rw [← set_getD_self l i hi]
      rw [List.set_eq_take_append_cons_drop]
      simp [hi, hgdi]
    -- now both sides are A ++ x :: (M ++ y :: B) shaped
    rw [h2, h3]
    conv_rhs => rw [h0, h4]
    rw [List.append_assoc, List.append_assoc]
    apply List.Perm.append_left
    calc l[i] :: ((l.take i).drop (j + 1) ++ l[j] :: l.drop (i + 1))
        ~ l[i] :: l[j] :: ((l.take i).drop (j + 1) ++ l.drop (i + 1)) :=
          List.Perm.cons _ List.perm_middle
      _ ~ l[j] :: l[i] :: ((l.take i).drop (j + 1) ++ l.drop (i + 1)) :=
          List.Perm.swap _ _ _
      _ ~ l[j] :: ((l.take i).drop (j + 1) ++ l[i] :: l.drop (i + 1)) :=
          List.Perm.cons _ List.perm_middle.symm

theorem lcgNext_lt (seed : Nat) : lcgNext seed < 233280 :=
  Nat.mod_lt _ (by omega)

theorem lcgNextInt_le (seed i : Nat) : lcgNextInt (lcgNext seed) 0 (i + 1) ≤ i := by
  have h : lcgNext seed * (i + 1 - 0) / 233280 < i + 1 := by
    rw [Nat.div_lt_iff_lt_mul (by omega)]
    calc lcgNext seed * (i + 1 - 0) < 233280 * (i + 1) :=
          Nat.mul_lt_mul_of_lt_of_le (lcgNext_lt seed) (by omega) (by omega)
      _ = (i + 1) * 233280 := Nat.mul_comm _ _
  unfold lcgNextInt
  omega

theorem shuffleStep_perm (l : List Nat) (seed i : Nat) (hi : i < l.length) :
    (shuffleStep (l, seed) i).1 ~ l :=
  listSwap_perm l i _ (lcgNextInt_le seed i) hi

theorem foldl_shuffleStep_perm (idxs : List Nat) (l0 : List Nat) :
    ∀ (l : List Nat) (seed : Nat), l ~ l0 → (∀ i ∈ idxs, i < l0.length) →
      (idxs.foldl shuffleStep (l, seed)).1 ~ l0 := by
  induction idxs with
  | nil => intro l seed hp _; exact hp
  | cons i is ih =>
    intro l seed hp hb
    simp only [List.foldl_cons]
    have hi : i < l.length := by
      rw [hp.length_eq]
      exact hb i (List.mem_cons_self i is)
    have hstep : (shuffleStep (l, seed) i).1 ~ l0 :=
      (shuffleStep_perm l seed i hi).trans hp
    have : (shuffleStep (l, seed)) i = ((shuffleStep (l, seed) i).1, (shuffleStep (l, seed) i).2) := rfl
    rw [this]
    exact ih _ _ hstep (fun k hk => hb k (List.mem_cons_of_mem _ hk))

theorem fisherYates_perm (l : List Nat) (seed : Nat) : (fisherYates l seed).1 ~ l := by
  apply foldl_shuffleStep_perm _ l l seed (List.Perm.refl l)
  intro i hi
  unfold shuffleIndices at hi
  rw [List.mem_reverse, List.mem_range'_1] at hi
  omega

end GridGen

namespace NumberBingo

theorem callNumber_fst (s : BingoGameSession) (r now : Nat) :
    (callNumber r now s).1 =
      if (remainingNumbers s).length = 0 then none
      else some ((remainingNumbers s).getD r 0) := by
  simp only [callNumber]
  split
  · rfl
  · split <;> rfl

theorem callNumber_calledNumbers (s : BingoGameSession) (r now : Nat)
    (h : (remainingNumbers s).length ≠ 0) :
    (callNumber r now s).2.calledNumbers =
      s.calledNumbers ++ [{ number := (remainingNumbers s).getD r 0, calledAt := now }] := by
  simp only [callNumber]
  rw [if_neg h]
  split <;> rfl

theorem callNumber_exhausted (s : BingoGameSession) (r now : Nat)
    (hex : remainingNumbers s = []) :
    callNumber r now s = (none, s) := by
  simp only [callNumber]
  rw [if_pos (by simp [hex])]

theorem mem_remainingNumbers (s : BingoGameSession) (n : Nat) :
    n ∈ remainingNumbers s ↔ (1 ≤ n ∧ n ≤ 75) ∧ n ∉ calledNumbersList s := by
  constructor
  · intro h
    rw [remainingNumbers, List.mem_filter] at h
    obtain ⟨h1, h2⟩ := h
    rw [List.mem_range'_1] at h1
    refine ⟨⟨h1.1, by omega⟩, fun hmem => ?_⟩
    simp [List.contains, List.elem_eq_mem, hmem] at h2
  · intro h
    rw [remainingNumbers, List.mem_filter, List.mem_range'_1]
    refine ⟨⟨h.1.1, by omega⟩, ?_⟩
    simp [List.contains, List.elem_eq_mem, h.2]

theorem remainingNumbers_eq_nil_iff (s : BingoGameSession) :
    remainingNumbers s = [] ↔ ∀ n, 1 ≤ n → n ≤ 75 → n ∈ calledNumbersList s := by
  constructor
  · intro h n h1 h2
    by_contra hmem
    have hin : n ∈ remainingNumbers s := (mem_remainingNumbers s n).mpr ⟨⟨h1, h2⟩, hmem⟩
    simp [h] at hin
  · intro h
    rw [List.eq_nil_iff_forall_not_mem]
    intro n hn
    rw [mem_remainingNumbers] at hn
    exact hn.2 (h n hn.1.1 hn.1.2)

end NumberBingo

namespace LetterBingo

theorem checkForWinners_frame (now : Nat) (c : Char) (s : LetterBingoGameSession) :
    (checkForWinners now c s).drawnLetters = s.drawnLetters
    ∧ (checkForWinners now c s).remainingLetters = s.remainingLetters
    ∧ (checkForWinners now c s).players = s.players := by
  simp only [checkForWinners]
  split <;> exact ⟨rfl, rfl, rfl⟩

theorem drawLetter_history (t : LetterBingoGameSession) (r now : Nat)
    (h : t.remainingLetters.length ≠ 0) :
    (drawLetter r now t).2.drawnLetters =
      t.drawnLetters ++ [(t.remainingLetters.getD r 'A', now)]
    ∧ (drawLetter r now t).2.remainingLetters = t.remainingLetters.eraseIdx r := by
  simp only [drawLetter]
  rw [if_neg h]
  constructor
  · exact (checkForWinners_frame now _ _).1
  · exact (checkForWinners_frame now _ _).2.1

end LetterBingo

/-- C1: for every grid-variant session state, `callNumber` returns `null`
exactly when all 75 numbers of the domain are already in `calledNumbers`;
otherwise it returns a fresh number of `1..75` not yet called and appends
exactly that one number (with its timestamp) to `calledNumbers`. -/
theorem C1_callNumber_draw_pool (s : NumberBingo.BingoGameSession) (r now : Nat) :
    ((NumberBingo.callNumber r now s).1 = none ↔
        ∀ n, 1 ≤ n → n ≤ 75 → n ∈ NumberBingo.calledNumbersList s)
    ∧ (r < (NumberBingo.remainingNumbers s).length →
        ∃ m, (NumberBingo.callNumber r now s).1 = some m
          ∧ 1 ≤ m ∧ m ≤ 75
          ∧ m ∉ NumberBingo.calledNumbersList s
          ∧ (NumberBingo.callNumber r now s).2.calledNumbers =
              s.calledNumbers ++ [{ number := m, calledAt := now }]) := by
  constructor
  · rw [NumberBingo.callNumber_fst, ← NumberBingo.remainingNumbers_eq_nil_iff]
    constructor
    · intro h
      by_cases hl : (NumberBingo.remainingNumbers s).length = 0
      · exact List.length_eq_zero.mp hl
      · simp [hl] at h
    · intro h
      simp [h]
  · intro hr
    have hl : (NumberBingo.remainingNumbers s).length ≠ 0 := by omega
    have hmem : (NumberBingo.remainingNumbers s).getD r 0 ∈ NumberBingo.remainingNumbers s := by
      simp only [List.getD_eq_getElem?_getD, List.getElem?_eq_getElem hr, Option.getD_some]
      exact List.getElem_mem hr
    rw [NumberBingo.mem_remainingNumbers] at hmem
    refine ⟨(NumberBingo.remainingNumbers s).getD r 0, ?_, hmem.1.1, hmem.1.2, hmem.2, ?_⟩
    · rw [NumberBingo.callNumber_fst, if_neg hl]
    · exact NumberBingo.callNumber_calledNumbers s r now hl

/-- C1 witness: on a fresh active session the draw succeeds with a fresh
number appended to the history. -/
theorem C1_callNumber_draw_pool_witness :
    ∃ m, (NumberBingo.callNumber 0 0 NumberBingo.freshActiveGame).1 = some m
      ∧ 1 ≤ m ∧ m ≤ 75
      ∧ m ∉ NumberBingo.calledNumbersList NumberBingo.freshActiveGame
      ∧ (NumberBingo.callNumber 0 0 NumberBingo.freshActiveGame).2.calledNumbers =
          NumberBingo.freshActiveGame.calledNumbers ++ [{ number := m, calledAt := 0 }] :=
  (C1_callNumber_draw_pool NumberBingo.freshActiveGame 0 0).2 (by decide)

/-- C3 counterexample: on a session whose 75 numbers are all called, the
manual admin call-number trigger returns the "no more values" error but does
NOT set the status to `completed` and does NOT stop the scheduler — contrary
to the claim that every `callNext` invocation terminates an exhausted
session. -/
theorem C3_counterexample :
    NumberBingo.remainingNumbers NumberBingo.exhaustedGame = []
    ∧ NumberBingo.exhaustedGame.status = NumberBingo.GameStatus.active
    ∧ (NumberBingo.callNumberRouteHandler 0 0 NumberBingo.exhaustedGame).response =
        Except.error "All numbers have been called"
    ∧ (NumberBingo.callNumberRouteHandler 0 0 NumberBingo.exhaustedGame).game.status =
        NumberBingo.GameStatus.active
    ∧ (NumberBingo.callNumberRouteHandler 0 0 NumberBingo.exhaustedGame).stoppedScheduler
        = false := by
  refine ⟨by decide, rfl, rfl, by decide, by decide⟩

/-- C3 amended: on an exhausted draw pool no value is drawn in either path,
but only the scheduler tick completes the session and stops the timer; the
manual admin trigger merely reports the error, leaving the session (and the
scheduler) untouched. -/
theorem C3_amended_exhaustion (s : NumberBingo.BingoGameSession) (r now : Nat)
    (hex : NumberBingo.remainingNumbers s = []) :
    (s.status = NumberBingo.GameStatus.active →
      (NumberBingo.autoCallTick r now s).game.status = NumberBingo.GameStatus.completed
      ∧ (NumberBingo.autoCallTick r now s).game.completedAt = some now
      ∧ (NumberBingo.autoCallTick r now s).stoppedScheduler = true
      ∧ (NumberBingo.autoCallTick r now s).drew = none
      ∧ (NumberBingo.autoCallTick r now s).game.calledNumbers = s.calledNumbers)
    ∧ ((s.status = NumberBingo.GameStatus.active ∨ s.status = NumberBingo.GameStatus.paused) →
      (NumberBingo.callNumberRouteHandler r now s).response =
          Except.error "All numbers have been called"
      ∧ (NumberBingo.callNumberRouteHandler r now s).game = s
      ∧ (NumberBingo.callNumberRouteHandler r now s).stoppedScheduler = false) := by
  constructor
  · intro hstat
    simp only [NumberBingo.autoCallTick]
    rw [if_neg (by simp [hstat]), NumberBingo.callNumber_exhausted s r now hex]
    exact ⟨rfl, rfl, rfl, rfl, rfl⟩
  · intro hstat
    simp only [NumberBingo.callNumberRouteHandler]
    rw [if_neg (by rcases hstat with h | h <;> simp [h]),
        NumberBingo.callNumber_exhausted s r now hex]
    exact ⟨rfl, rfl, rfl⟩

/-- C3 amended witness: concrete exhausted session, both paths. -/
theorem C3_amended_exhaustion_witness :
    (NumberBingo.autoCallTick 0 0 NumberBingo.exhaustedGame).game.status =
        NumberBingo.GameStatus.completed
    ∧ (NumberBingo.callNumberRouteHandler 0 0 NumberBingo.exhaustedGame).game =
        NumberBingo.exhaustedGame := by
  have h := C3_amended_exhaustion NumberBingo.exhaustedGame 0 0 (by decide)
  exact ⟨(h.1 rfl).1, ((h.2 (Or.inl rfl)).2).1⟩

/-- C6 counterexample: `callNumber` itself mutates the draw history — on a
fresh active session the returned session's `calledNumbers` differs from the
input's, contradicting the claim that the draw operation leaves the history
unchanged for the caller to append. -/
theorem C6_counterexample :
    (NumberBingo.callNumber 0 0 NumberBingo.freshActiveGame).2.calledNumbers ≠
      NumberBingo.freshActiveGame.calledNumbers := by decide

/-- C6 amended: the draw operation itself performs the append — `callNumber`
appends the drawn number (with timestamp) to `calledNumbers`, and
`drawLetter` removes the drawn letter from `remainingLetters` and appends it
(with timestamp) to `drawnLetters`; the calling state machine does not append
to the history. -/
theorem C6_amended_draw_appends (s : NumberBingo.BingoGameSession) (r now : Nat)
    (h : r < (NumberBingo.remainingNumbers s).length)
    (t : LetterBingo.LetterBingoGameSession) (r2 now2 : Nat)
    (h2 : r2 < t.remainingLetters.length) :
    (NumberBingo.callNumber r now s).2.calledNumbers =
      s.calledNumbers ++
        [{ number := (NumberBingo.remainingNumbers s).getD r 0, calledAt := now }]
    ∧ (LetterBingo.drawLetter r2 now2 t).2.drawnLetters =
        t.drawnLetters ++ [(t.remainingLetters.getD r2 'A', now2)]
    ∧ (LetterBingo.drawLetter r2 now2 t).2.remainingLetters =
        t.remainingLetters.eraseIdx r2 := by
  refine ⟨NumberBingo.callNumber_calledNumbers s r now (by omega), ?_, ?_⟩
  · exact (LetterBingo.drawLetter_history t r2 now2 (by omega)).1
  · exact (LetterBingo.drawLetter_history t r2 now2 (by omega)).2

/-- C6 amended witness: concrete sessions for both variants. -/
theorem C6_amended_draw_appends_witness :
    (NumberBingo.callNumber 0 0 NumberBingo.freshActiveGame).2.calledNumbers =
      NumberBingo.freshActiveGame.calledNumbers ++
        [{ number := (NumberBingo.remainingNumbers NumberBingo.freshActiveGame).getD 0 0,
           calledAt := 0 }]
    ∧ (LetterBingo.drawLetter 0 0 LetterBingo.completedLetterGame).2.drawnLetters =
        LetterBingo.completedLetterGame.drawnLetters ++
          [(LetterBingo.completedLetterGame.remainingLetters.getD 0 'A', 0)] := by
  have h := C6_amended_draw_appends NumberBingo.freshActiveGame 0 0 (by decide)
    LetterBingo.completedLetterGame 0 0 (by decide)
  exact ⟨h.1, h.2.1⟩

/-- C9 counterexample: invoking stop on an already-completed session succeeds
and overwrites its completion timestamp (5 becomes 9), contradicting both the
"only from a non-terminal state" precondition and the "timestamp only if
unset" clause of the claim. -/
theorem C9_counterexample :
    NumberBingo.completedGame.status = NumberBingo.GameStatus.completed
    ∧ NumberBingo.completedGame.completedAt = some 5
    ∧ (NumberBingo.stopRouteHandler 9 NumberBingo.completedGame).response = Except.ok ()
    ∧ (NumberBingo.stopRouteHandler 9 NumberBingo.completedGame).game.completedAt = some 9 :=
  ⟨rfl, rfl, rfl, rfl⟩

/-- C9 amended: the stop operation is permitted from every state (including
`completed`); it always transitions the session to `completed`, stops the
scheduler, and unconditionally overwrites the completion timestamp with the
current time, leaving roster, history, cards and winners unchanged. -/
theorem C9_amended_stop (s : NumberBingo.BingoGameSession) (now : Nat) :
    (NumberBingo.stopRouteHandler now s).response = Except.ok ()
    ∧ (NumberBingo.stopRouteHandler now s).game.status = NumberBingo.GameStatus.completed
    ∧ (NumberBingo.stopRouteHandler now s).stoppedScheduler = true
    ∧ (NumberBingo.stopRouteHandler now s).game.completedAt = some now
    ∧ (NumberBingo.stopRouteHandler now s).game.players = s.players
    ∧ (NumberBingo.stopRouteHandler now s).game.calledNumbers = s.calledNumbers
    ∧ (NumberBingo.stopRouteHandler now s).game.winners = s.winners
    ∧ (NumberBingo.stopRouteHandler now s).game.bingoCards = s.bingoCards :=
  ⟨rfl, rfl, rfl, rfl, rfl, rfl, rfl, rfl⟩

/-- C10: `drawLetter` performs no session-status check — on a concrete
already-completed session with one remaining letter it still draws the
letter, moves it from `remainingLetters` to `drawnLetters`, and records a
new winner on the completed session. -/
theorem C10_drawLetter_ignores_status :
    LetterBingo.completedLetterGame.status = LetterBingo.LetterStatus.completed
    ∧ (LetterBingo.drawLetter 0 9 LetterBingo.completedLetterGame).1 = some 'A'
    ∧ (LetterBingo.drawLetter 0 9 LetterBingo.completedLetterGame).2.remainingLetters = []
    ∧ (LetterBingo.drawLetter 0 9 LetterBingo.completedLetterGame).2.drawnLetters = [('A', 9)]
    ∧ (LetterBingo.drawLetter 0 9 LetterBingo.completedLetterGame).2.winners = [7] := by
  refine ⟨rfl, ?_, ?_, ?_, ?_⟩ <;> decide

namespace NumberBingo

theorem grid_checkForWinners_skips_winners (now : Nat) (s : BingoGameSession) (p : Nat)
    (hp : p ∈ s.winners.map (fun w => w.player)) :
    ∀ w ∈ checkForWinners now s, w.player ≠ p := by
  intro w hw
  unfold checkForWinners at hw
  rw [List.mem_filterMap] at hw
  obtain ⟨card, hcard, hsome⟩ := hw
  split at hsome
  · cases hsome
  · next hcond =>
    rw [Option.map_eq_some'] at hsome
    obtain ⟨pat, hpat, hww⟩ := hsome
    intro heq
    apply hcond
    have hpl : card.player = p := by rw [← hww] at heq; exact heq
    rw [hpl]
    simp [List.contains, List.elem_eq_mem, hp]

end NumberBingo

namespace LetterBingo

theorem checkForWinners_winners_eq (now : Nat) (c : Char) (s : LetterBingoGameSession) :
    (checkForWinners now c s).winners =
      s.winners ++ (s.playerWords.filter (wonNow c)).map (fun pw => pw.player) := by
  simp only [checkForWinners]
  split <;> rfl

theorem wonNow_isWinner_false {c : Char} {pw : PlayerWord} (h : wonNow c pw = true) :
    pw.isWinner = false := by
  unfold wonNow at h
  simp only [Bool.and_eq_true, Bool.not_eq_true'] at h
  exact h.2

theorem word_checkForWinners_count (now : Nat) (c : Char) (t : LetterBingoGameSession)
    (q : Nat) (hq : ∀ pw ∈ t.playerWords, pw.player = q → pw.isWinner = true) :
    (checkForWinners now c t).winners.count q = t.winners.count q := by
  rw [checkForWinners_winners_eq, List.count_append]
  have hz : ((t.playerWords.filter (wonNow c)).map (fun pw => pw.player)).count q = 0 := by
    rw [List.count_eq_zero]
    intro hmem
    rw [List.mem_map] at hmem
    obtain ⟨pw, hpw, hple⟩ := hmem
    rw [List.mem_filter] at hpw
    have hfalse : pw.isWinner = false := wonNow_isWinner_false hpw.2
    have htrue := hq pw hpw.1 hple
    rw [htrue] at hfalse
    cases hfalse
  omega

end LetterBingo

/-- C2 counterexample: two players whose words both complete on the same
drawn letter are BOTH recorded in `winners` and `winningWords` by a single
`drawLetter`, contradicting the claim that at most one player is ever
recorded. -/
theorem C2_counterexample :
    (LetterBingo.drawLetter 0 0 LetterBingo.simultaneousGame).2.winners = [1, 2]
    ∧ (LetterBingo.drawLetter 0 0 LetterBingo.simultaneousGame).2.winningWords =
        [(1, ['A', 'B', 'C']), (2, ['A', 'D', 'E'])] := by decide

/-- C2 amended: the word variant completes the session on the first
winner-detecting check — whenever a check adds any winner, the status becomes
`completed` with the completion timestamp set — and every recorded winner
comes either from before or from a playerWord not yet flagged as winner; but
several players completing on the same drawn letter are all recorded within
that single invocation. -/
theorem C2_amended_first_win_terminates (t : LetterBingo.LetterBingoGameSession)
    (l : Char) (now : Nat) :
    ((LetterBingo.checkForWinners now l t).winners.length > t.winners.length →
      (LetterBingo.checkForWinners now l t).status = LetterBingo.LetterStatus.completed
      ∧ (LetterBingo.checkForWinners now l t).completedAt = some now)
    ∧ (∀ p ∈ (LetterBingo.checkForWinners now l t).winners,
        p ∈ t.winners ∨ ∃ pw ∈ t.playerWords, pw.player = p ∧ pw.isWinner = false) := by
  constructor
  · intro hgrow
    by_cases hj : (t.playerWords.filter (LetterBingo.wonNow l)).length > 0
    · constructor <;>
        · simp only [LetterBingo.checkForWinners]
          rw [if_pos hj]
    · exfalso
      rw [LetterBingo.checkForWinners_winners_eq, List.length_append,
          List.length_map] at hgrow
      omega
  · intro p hp
    rw [LetterBingo.checkForWinners_winners_eq, List.mem_append] at hp
    rcases hp with h | h
    · exact Or.inl h
    · right
      rw [List.mem_map] at h
      obtain ⟨pw, hpw, hple⟩ := h
      rw [List.mem_filter] at hpw
      exact ⟨pw, hpw.1, hple, LetterBingo.wonNow_isWinner_false hpw.2⟩

/-- C2 amended witness: on the concrete two-simultaneous-winners session the
check completes the session and the first recorded winner was unflagged. -/
theorem C2_amended_first_win_terminates_witness :
    (LetterBingo.checkForWinners 0 'A' LetterBingo.simultaneousGame).status =
      LetterBingo.LetterStatus.completed
    ∧ (1 ∈ LetterBingo.simultaneousGame.winners ∨
        ∃ pw ∈ LetterBingo.simultaneousGame.playerWords,
          pw.player = 1 ∧ pw.isWinner = false) := by
  have h := C2_amended_first_win_terminates LetterBingo.simultaneousGame 'A' 0
  exact ⟨(h.1 (by decide)).1, h.2 1 (by decide)⟩

/-- C5: a player already present in `winners` is never added again by
`checkForWinners` — in the grid variant the returned new-winner list contains
no entry for such a player, and in the word variant (where the recorded
winner's playerWord is flagged `isWinner`) the occurrence count of that
player in `winners` is unchanged by further checks. -/
theorem C5_winner_uniqueness (s : NumberBingo.BingoGameSession) (now : Nat) (p : Nat)
    (hp : p ∈ s.winners.map (fun w => w.player))
    (t : LetterBingo.LetterBingoGameSession) (c : Char) (now2 : Nat) (q : Nat)
    (hq : ∀ pw ∈ t.playerWords, pw.player = q → pw.isWinner = true) :
    (∀ w ∈ NumberBingo.checkForWinners now s, w.player ≠ p)
    ∧ (LetterBingo.checkForWinners now2 c t).winners.count q = t.winners.count q :=
  ⟨NumberBingo.grid_checkForWinners_skips_winners now s p hp,
   LetterBingo.word_checkForWinners_count now2 c t q hq⟩

/-- C5 witness: player 3 (already a grid winner with a fully marked card) is
not re-added; player 4 (already a flagged word winner) keeps count 1. -/
theorem C5_winner_uniqueness_witness :
    (∀ w ∈ NumberBingo.checkForWinners 1 NumberBingo.winnerGame, w.player ≠ 3)
    ∧ (LetterBingo.checkForWinners 1 'C' LetterBingo.flaggedWinnerGame).winners.count 4 =
        LetterBingo.flaggedWinnerGame.winners.count 4 :=
  C5_winner_uniqueness NumberBingo.winnerGame 1 3 (by decide)
    LetterBingo.flaggedWinnerGame 'C' 1 4 (by decide)

namespace NumberBingo

theorem playersWithoutCards_empty_iff (s : BingoGameSession) :
    (s.players.filter
        (fun p => !((s.bingoCards.map (fun c => c.player)).contains p))).length = 0 ↔
      ∀ p ∈ s.players, ∃ c ∈ s.bingoCards, c.player = p := by
  rw [List.length_eq_zero, List.filter_eq_nil_iff]
  constructor
  · intro h p hp
    have hc := h p hp
    simp only [Bool.not_eq_true', Bool.not_eq_false, List.contains, List.elem_eq_mem,
      decide_eq_true_eq, List.mem_map] at hc
    obtain ⟨c, hcmem, hcp⟩ := hc
    exact ⟨c, hcmem, hcp⟩
  · intro h p hp
    obtain ⟨c, hcmem, hcp⟩ := h p hp
    simp only [Bool.not_eq_true', Bool.not_eq_false, List.contains, List.elem_eq_mem,
      decide_eq_true_eq, List.mem_map]
    exact ⟨c, hcmem, hcp⟩

end NumberBingo

/-- C7: for a grid session in status `ready` whose roster respects capacity,
`start` succeeds exactly when the roster is at capacity and every roster
member has a card; on failure the session is unchanged and the scheduler is
not started; on success the status becomes `active`, the start timestamp is
recorded and roster and cards are untouched. -/
theorem C7_start_preconditions (s : NumberBingo.BingoGameSession) (now : Nat)
    (hready : s.status = NumberBingo.GameStatus.ready)
    (hcap : s.players.length ≤ s.maxPlayers) :
    ((NumberBingo.startRouteHandler now s).response = Except.ok () ↔
      (s.players.length = s.maxPlayers ∧
        ∀ p ∈ s.players, ∃ c ∈ s.bingoCards, c.player = p))
    ∧ ((NumberBingo.startRouteHandler now s).response ≠ Except.ok () →
        (NumberBingo.startRouteHandler now s).game = s
        ∧ (NumberBingo.startRouteHandler now s).startedScheduler = false)
    ∧ ((NumberBingo.startRouteHandler now s).response = Except.ok () →
        (NumberBingo.startRouteHandler now s).game.status = NumberBingo.GameStatus.active
        ∧ (NumberBingo.startRouteHandler now s).game.startedAt = some now
        ∧ (NumberBingo.startRouteHandler now s).startedScheduler = true
        ∧ (NumberBingo.startRouteHandler now s).game.players = s.players
        ∧ (NumberBingo.startRouteHandler now s).game.bingoCards = s.bingoCards) := by
  have hkey := NumberBingo.playersWithoutCards_empty_iff s
  simp only [NumberBingo.startRouteHandler]
  rw [if_neg (by simp [hready])]
  by_cases hfull : s.players.length < s.maxPlayers
  · rw [if_pos hfull]
    refine ⟨⟨fun h => Except.noConfusion h, fun hrhs => absurd hrhs.1 (by omega)⟩,
      fun _ => ⟨rfl, rfl⟩, fun h => Except.noConfusion h⟩
  · rw [if_neg hfull]
    by_cases hcards :
        (s.players.filter
          (fun p => !((s.bingoCards.map (fun c => c.player)).contains p))).length > 0
    · rw [if_pos hcards]
      refine ⟨⟨fun h => Except.noConfusion h, fun hrhs => ?_⟩,
        fun _ => ⟨rfl, rfl⟩, fun h => Except.noConfusion h⟩
      exact absurd (hkey.mpr hrhs.2) (by omega)
    · rw [if_neg hcards]
      refine ⟨⟨fun _ => ⟨by omega, hkey.mp (by omega)⟩, fun _ => rfl⟩,
        fun h => absurd rfl h, fun _ => ⟨rfl, rfl, rfl, rfl, rfl⟩⟩

/-- C7 witness: a ready two-player session at capacity with both players
carded satisfies the start iff at a concrete input. -/
theorem C7_start_preconditions_witness :
    ((NumberBingo.startRouteHandler 2 NumberBingo.readyFullGame).response = Except.ok () ↔
      (NumberBingo.readyFullGame.players.length = NumberBingo.readyFullGame.maxPlayers ∧
        ∀ p ∈ NumberBingo.readyFullGame.players,
          ∃ c ∈ NumberBingo.readyFullGame.bingoCards, c.player = p)) :=
  (C7_start_preconditions NumberBingo.readyFullGame 2 (by decide) (by decide)).1

namespace NumberBingo

theorem cardHasNumber_iff (n : Nat) (card : BingoCard) :
    cardHasNumber n card = true ↔
      ∃ col, col < 5 ∧ ∃ row, row < 5 ∧ cellVal card.grid col row = some n := by
  unfold cardHasNumber
  simp [List.any_eq_true, List.mem_range, beq_iff_eq]

theorem markCells_cell (n : Nat) (card : BingoCard) (col row : Nat)
    (hc : col < card.marked.length) (hr : row < (card.marked.getD col []).length) :
    cellMarked (markCells n card).marked col row =
      if col < 5 ∧ row < 5 ∧ cellVal card.grid col row = some n then true
      else cellMarked card.marked col row := by
  have e1 : card.marked.getD col [] = card.marked[col] := by
    simp [List.getD_eq_getElem?_getD, List.getElem?_eq_getElem hc]
  rw [e1] at hr
  unfold cellMarked markCells
  simp only [List.getD_eq_getElem?_getD, List.getElem?_mapIdx,
    List.getElem?_eq_getElem hc, Option.map_some', Option.getD_some,
    List.getElem?_eq_getElem hr, e1]

theorem markCells_no_match (n : Nat) (card : BingoCard)
    (h : cardHasNumber n card = false) : markCells n card = card := by
  have hno : ∀ col row, col < 5 → row < 5 → ¬(cellVal card.grid col row = some n) := by
    intro col row hcol hrow hcon
    rw [← Bool.not_eq_true, cardHasNumber_iff] at h
    exact h ⟨col, hcol, row, hrow, hcon⟩
  unfold markCells
  have : card.marked.mapIdx (fun col mcol =>
      mcol.mapIdx (fun row m =>
        if col < 5 ∧ row < 5 ∧ cellVal card.grid col row = some n then true else m)) =
      card.marked := by
    rw [List.mapIdx_eq_iff]
    intro col
    cases hcol : card.marked[col]? with
    | none => rfl
    | some mcol =>
      have hinner : List.mapIdx (fun row m =>
          if col < 5 ∧ row < 5 ∧ cellVal card.grid col row = some n then true else m)
            mcol = mcol := by
        rw [List.mapIdx_eq_iff]
        intro row
        cases hrow : mcol[row]? with
        | none => rfl
        | some m =>
          simp only [Option.map_some']
          by_cases hcl : col < 5 ∧ row < 5 ∧ cellVal card.grid col row = some n
          · exact absurd hcl.2.2 (hno col row hcl.1 hcl.2.1)
          · rw [if_neg hcl]
      simp only [Option.map_some', hinner]
  rw [this]

theorem markNumberOnPlayerCard_eq (pid n : Nat) (s : BingoGameSession) (i : Nat)
    (card : BingoCard)
    (hfind : s.bingoCards.findIdx? (fun c => c.player == pid) = some i)
    (hcard : s.bingoCards[i]? = some card) :
    markNumberOnPlayerCard pid n s =
      (cardHasNumber n card,
       { s with bingoCards := s.bingoCards.set i (markCells n card) }) := by
  unfold markNumberOnPlayerCard
  simp only [hfind, hcard]

end NumberBingo

/-- C8: on a grid session where `i` is the first index of a card owned by
`pid`, marking number `n` succeeds exactly when some cell of that card holds
`n`; on success exactly the matching cells of that card become marked (all
other cells of it keep their value, its grid and owner are untouched) and
every other card is unchanged; if `n` is nowhere on the card the operation
returns failure with the whole session unchanged, and the manual-mode route
then responds with the not-found error without changing any card. -/
theorem C8_markNumber_frame (pid n now : Nat) (s : NumberBingo.BingoGameSession)
    (i : Nat) (card : NumberBingo.BingoCard)
    (hfind : s.bingoCards.findIdx? (fun c => c.player == pid) = some i)
    (hcard : s.bingoCards[i]? = some card) :
    ((NumberBingo.markNumberOnPlayerCard pid n s).1 = true ↔
      ∃ col, col < 5 ∧ ∃ row, row < 5 ∧ NumberBingo.cellVal card.grid col row = some n)
    ∧ (NumberBingo.markNumberOnPlayerCard pid n s).2.bingoCards =
        s.bingoCards.set i (NumberBingo.markCells n card)
    ∧ (∀ j, j ≠ i →
        (NumberBingo.markNumberOnPlayerCard pid n s).2.bingoCards[j]? = s.bingoCards[j]?)
    ∧ (NumberBingo.markCells n card).player = card.player
    ∧ (NumberBingo.markCells n card).grid = card.grid
    ∧ (∀ col row, col < card.marked.length → row < (card.marked.getD col []).length →
        NumberBingo.cellMarked (NumberBingo.markCells n card).marked col row =
          if col < 5 ∧ row < 5 ∧ NumberBingo.cellVal card.grid col row = some n then true
          else NumberBingo.cellMarked card.marked col row)
    ∧ (NumberBingo.cardHasNumber n card = false →
        NumberBingo.markNumberOnPlayerCard pid n s = (false, s)
        ∧ ((s.status = NumberBingo.GameStatus.active ∨
              s.status = NumberBingo.GameStatus.paused) →
            s.markingMode = "manual" →
            pid ∈ s.players →
            1 ≤ n → n ≤ 75 →
            n ∈ NumberBingo.calledNumbersList s →
            (NumberBingo.markNumberRouteHandler pid n now s).response =
                Except.error "Number not found on your card"
            ∧ (NumberBingo.markNumberRouteHandler pid n now s).game = s)) := by
  have heq := NumberBingo.markNumberOnPlayerCard_eq pid n s i card hfind hcard
  refine ⟨?_, ?_, ?_, rfl, rfl, ?_, ?_⟩
  · rw [heq]
    exact NumberBingo.cardHasNumber_iff n card
  · rw [heq]
  · intro j hj
    rw [heq]
    exact List.getElem?_set_ne (fun h => hj h.symm)
  · exact fun col row hc hr => NumberBingo.markCells_cell n card col row hc hr
  · intro hno
    have hmk : NumberBingo.markNumberOnPlayerCard pid n s = (false, s) := by
      rw [heq, hno, NumberBingo.markCells_no_match n card hno]
      have hset : s.bingoCards.set i card = s.bingoCards := by
        obtain ⟨hlt, hval⟩ := List.getElem?_eq_some_iff.mp hcard
        apply List.ext_getElem (by simp)
        intro k h1 h2
        rw [List.getElem_set]
        split
        · next hk => subst hk; exact hval.symm
        · rfl
      rw [hset]
    refine ⟨hmk, fun hstat hmode hplayer h1 h75 hcalled => ?_⟩
    simp only [NumberBingo.markNumberRouteHandler]
    rw [if_neg (by rcases hstat with h | h <;> simp [h]),
        if_neg (by simp [hmode]),
        if_neg (by simp [List.contains, List.elem_eq_mem, hplayer]),
        if_neg (by omega),
        if_neg (by simp [List.contains, List.elem_eq_mem, hcalled]),
        hmk]
    exact ⟨rfl, rfl⟩

/-- C8 witness: player 1's one-cell card holding 7 in the manual session. -/
theorem C8_markNumber_frame_witness :
    ((NumberBingo.markNumberOnPlayerCard 1 7 NumberBingo.manualGame).1 = true ↔
      ∃ col, col < 5 ∧ ∃ row, row < 5 ∧
        NumberBingo.cellVal NumberBingo.smallCard.grid col row = some 7) :=
  (C8_markNumber_frame 1 7 0 NumberBingo.manualGame 0 NumberBingo.smallCard
    (by decide) (by decide)).1

namespace GridGen

open List

theorem columnRanges_getD (col : Nat) (h : col < 5) :
    columnRanges.getD col (0, 0) = (15 * col + 1, 15 * col + 15) := by
  interval_cases col <;> rfl

theorem buildColumn_unfold (col seed : Nat) (h : col < 5) :
    buildColumn col seed =
      ((List.range 5).map (fun row => if col = 2 ∧ row = 2 then 0
          else ((fisherYates (List.range' (15 * col + 1) 15) seed).1).getD row 0),
       (fisherYates (List.range' (15 * col + 1) 15) seed).2) := by
  have harith : 15 * col + 15 - (15 * col + 1) + 1 = 15 := by omega
  simp only [buildColumn, columnRanges_getD col h, harith]

theorem getD_map_range (f : Nat → Nat) (r : Nat) (hr : r < 5) :
    ((List.range 5).map f).getD r 0 = f r := by
  rw [List.getD_eq_getElem?_getD, List.getElem?_map, List.getElem?_range hr]
  rfl

theorem fisherYates_facts (m seed : Nat) :
    ((fisherYates (List.range' m 15) seed).1).length = 15
    ∧ ((fisherYates (List.range' m 15) seed).1).Nodup
    ∧ (∀ x ∈ (fisherYates (List.range' m 15) seed).1, m ≤ x ∧ x < m + 15) := by
  have hperm := fisherYates_perm (List.range' m 15) seed
  refine ⟨by rw [hperm.length_eq]; simp, hperm.nodup_iff.mpr (List.nodup_range' m 15),
    fun x hx => ?_⟩
  have hm := hperm.mem_iff.mp hx
  rwa [List.mem_range'_1] at hm

theorem nodupCenterFive (a : List Nat) (ha : a.Nodup) (hlen : a.length = 15)
    (hpos : ∀ x ∈ a, 1 ≤ x) :
    ([a.getD 0 0, a.getD 1 0, 0, a.getD 3 0, a.getD 4 0] : List Nat).Nodup := by
  have hg : ∀ (k : Nat) (hk : k < 15), a.getD k 0 = a.get ⟨k, by omega⟩ := by
    intro k hk
    simp [List.getD_eq_getElem?_getD, List.getElem?_eq_getElem (show k < a.length by omega)]
  have hne : ∀ (j k : Nat) (hj : j < 15) (hk : k < 15), j ≠ k →
      a.get ⟨j, by omega⟩ ≠ a.get ⟨k, by omega⟩ := by
    intro j k hj hk hjk heq
    rw [List.get_eq_getElem, List.get_eq_getElem] at heq
    exact hjk (ha.getElem_inj_iff.mp heq)
  have hnz : ∀ (k : Nat) (hk : k < 15), a.get ⟨k, by omega⟩ ≠ 0 := by
    intro k hk h0
    have hm : a.get ⟨k, by omega⟩ ∈ a := List.get_mem a k (by omega)
    have := hpos _ hm
    omega
  rw [hg 0 (by omega), hg 1 (by omega), hg 3 (by omega), hg 4 (by omega)]
  simp only [List.nodup_cons, List.mem_cons, List.not_mem_nil, or_false,
    List.nodup_nil, and_true, List.mem_singleton]
  push_neg
  refine ⟨⟨hne 0 1 (by omega) (by omega) (by omega), hnz 0 (by omega),
      hne 0 3 (by omega) (by omega) (by omega), hne 0 4 (by omega) (by omega) (by omega)⟩,
    ⟨hnz 1 (by omega), hne 1 3 (by omega) (by omega) (by omega),
      hne 1 4 (by omega) (by omega) (by omega)⟩,
    ⟨Ne.symm (hnz 3 (by omega)), Ne.symm (hnz 4 (by omega))⟩,
    ⟨hne 3 4 (by omega) (by omega) (by omega), not_false⟩⟩

theorem buildColumn_spec (col seed : Nat) (h : col < 5) :
    ((buildColumn col seed).1).length = 5
    ∧ (∀ r, r < 5 → ¬(col = 2 ∧ r = 2) →
        15 * col + 1 ≤ ((buildColumn col seed).1).getD r 0
        ∧ ((buildColumn col seed).1).getD r 0 ≤ 15 * col + 15)
    ∧ (col = 2 → ((buildColumn col seed).1).getD 2 0 = 0)
    ∧ ((buildColumn col seed).1).Nodup := by
  obtain ⟨hlen15, hnodup, hmem⟩ := fisherYates_facts (15 * col + 1) seed
  rw [buildColumn_unfold col seed h]
  dsimp only
  refine ⟨by simp, ?_, ?_, ?_⟩
  · intro r hr hcr
    rw [getD_map_range _ r hr, if_neg hcr]
    have hga : ((fisherYates (List.range' (15 * col + 1) 15) seed).1).getD r 0 =
        ((fisherYates (List.range' (15 * col + 1) 15) seed).1).get ⟨r, by omega⟩ := by
      simp [List.getD_eq_getElem?_getD, List.getElem?_eq_getElem (show r <
        ((fisherYates (List.range' (15 * col + 1) 15) seed).1).length by omega)]
    rw [hga]
    have := hmem _ (List.get_mem _ r (by omega))
    omega
  · intro hc2
    rw [getD_map_range _ 2 (by omega), if_pos ⟨hc2, rfl⟩]
  · by_cases hc2 : col = 2
    · subst hc2
      have hr5 : List.range 5 = [0, 1, 2, 3, 4] := rfl
      rw [hr5]
      simp only [List.map_cons, List.map_nil,
        if_neg (show ¬((2 : Nat) = 2 ∧ (0 : Nat) = 2) by omega),
        if_neg (show ¬((2 : Nat) = 2 ∧ (1 : Nat) = 2) by omega),
        if_pos (show (2 : Nat) = 2 ∧ (2 : Nat) = 2 by omega),
        if_neg (show ¬((2 : Nat) = 2 ∧ (3 : Nat) = 2) by omega),
        if_neg (show ¬((2 : Nat) = 2 ∧ (4 : Nat) = 2) by omega)]
      exact nodupCenterFive _ hnodup hlen15 (fun x hx => by have := hmem x hx; omega)
    · have heq : (List.range 5).map (fun row => if col = 2 ∧ row = 2 then 0
            else ((fisherYates (List.range' (15 * col + 1) 15) seed).1).getD row 0) =
          ((fisherYates (List.range' (15 * col + 1) 15) seed).1).take 5 := by
        apply List.ext_getElem
        · simp [hlen15]
        · intro k h1 h2
          simp only [List.getElem_map, List.getElem_range, List.getElem_take]
          rw [if_neg (by simp [hc2])]
          have hk : k < 5 := by simpa using h1
          simp [List.getD_eq_getElem?_getD, List.getElem?_eq_getElem (show k <
            ((fisherYates (List.range' (15 * col + 1) 15) seed).1).length by omega)]
      rw [heq]
      exact (List.take_sublist 5 _).nodup hnodup

theorem generate_eq (n : Nat) :
    generateDeterministicBingoCard n =
      [(buildColumn 0 n).1,
       (buildColumn 1 (buildColumn 0 n).2).1,
       (buildColumn 2 (buildColumn 1 (buildColumn 0 n).2).2).1,
       (buildColumn 3 (buildColumn 2 (buildColumn 1 (buildColumn 0 n).2).2).2).1,
       (buildColumn 4 (buildColumn 3 (buildColumn 2 (buildColumn 1
         (buildColumn 0 n).2).2).2).2).1] := rfl

end GridGen

/-- C4: `generateDeterministicBingoCard` is a pure function of `cardNumber`
(two invocations agree), and every generated grid has 5 columns of 5 cells,
each non-FREE cell of column `c` lies in `[15c+1, 15c+15]`, the centre cell
(column 2, row 2) is the FREE sentinel 0, and the 5 values of each column are
pairwise distinct. -/
theorem C4_card_generator (cardNumber : Nat) :
    GridGen.generateDeterministicBingoCard cardNumber =
      GridGen.generateDeterministicBingoCard cardNumber
    ∧ (GridGen.generateDeterministicBingoCard cardNumber).length = 5
    ∧ (∀ c, c < 5 →
        ((GridGen.generateDeterministicBingoCard cardNumber).getD c []).length = 5)
    ∧ (∀ c r, c < 5 → r < 5 → ¬(c = 2 ∧ r = 2) →
        15 * c + 1 ≤ GridGen.cellValue cardNumber c r
        ∧ GridGen.cellValue cardNumber c r ≤ 15 * c + 15)
    ∧ GridGen.cellValue cardNumber 2 2 = 0
    ∧ (∀ c, c < 5 →
        ((GridGen.generateDeterministicBingoCard cardNumber).getD c []).Nodup) := by
  have hg := GridGen.generate_eq cardNumber
  refine ⟨rfl, by rw [hg]; rfl, ?_, ?_, ?_, ?_⟩
  · intro c hc
    rw [hg]
    interval_cases c <;>
      exact (GridGen.buildColumn_spec _ _ (by omega)).1
  · intro c r hc hr hcr
    simp only [GridGen.cellValue]
    rw [hg]
    interval_cases c <;>
      exact (GridGen.buildColumn_spec _ _ (by omega)).2.1 r hr hcr
  · simp only [GridGen.cellValue]
    rw [hg]
    exact (GridGen.buildColumn_spec 2 _ (by omega)).2.2.1 rfl
  · intro c hc
    rw [hg]
    interval_cases c <;>
      exact (GridGen.buildColumn_spec _ _ (by omega)).2.2.2

/-- C4 witness: card number 1, column 0 bounds, centre FREE cell, and column
distinctness at a concrete input. -/
theorem C4_card_generator_witness :
    (15 * 0 + 1 ≤ GridGen.cellValue 1 0 0 ∧ GridGen.cellValue 1 0 0 ≤ 15 * 0 + 15)
    ∧ GridGen.cellValue 1 2 2 = 0
    ∧ ((GridGen.generateDeterministicBingoCard 1).getD 0 []).Nodup := by
  have h := C4_card_generator 1
  exact ⟨h.2.2.2.1 0 0 (by decide) (by decide) (by decide),
    h.2.2.2.2.1, h.2.2.2.2.2 0 (by decide)⟩
